import Mathlib

/-
Verification of the travel-itinerary web application.

Shallow embedding of the functions the specification talks about:
  - calculateTrendPercentage, parseMarkdownToJson, getFirstWord (lib/utils)
  - the create-trip action (app/routes/api/create-trip.ts)
  - getUsersAndTripsStats, getUserGrowthPerDay (appwrite/dashboard)
  - getExistingUser, storeUserData and the admin clientLoader
    (appwrite/auth and app/routes/admin/admin-layout.tsx)
  - the trips-page loader and getAllTrips (app/routes/admin/trips.tsx,
    appwrite/trips)
  - the trip-form handleSubmit validation (the CreateTrip component)

External collaborators (the generative-model endpoint, the photo-search
endpoint, the document store, JSON.parse / JSON.stringify, wall-clock
time) are modelled as explicit parameters; machine floating point is
modelled with exact rationals, since every claim is about the exact
arithmetic the formulas denote.
-/

namespace TravelApp

/-! ### Shared string constants (role values, messages, literals) -/

def roleUser : String := "user"

def roleAdmin : String := "admin"

def msgFillAll : String := "Please fill in all fields"

def msgDurationRange : String := "Duration must be between 1 and 10 days"

/-- The characters of the string literal null, which is what
JSON.stringify produces on a null value. -/
def nullLit : List Char := ("null").data

/-! ### calculateTrendPercentage (lib/utils)

Source:
    if (countOfLastMonth === 0) return countOfThisMonth === 0
      ? (no change, 0) : (increment, 100);
    const change = countOfThisMonth - countOfLastMonth;
    const percentage = Math.abs((change / countOfLastMonth) * 100);
    if (change > 0) (increment, percentage)
    else if (change < 0) (decrement, percentage)
    else (no change, 0)
JS numbers are modelled by exact rationals. -/

inductive Trend where
  | increment
  | decrement
  | noChange
deriving DecidableEq

structure TrendResult where
  trend : Trend
  percentage : ℚ
deriving DecidableEq

def calculateTrendPercentage (countOfThisMonth countOfLastMonth : ℚ) : TrendResult :=
  if countOfLastMonth = 0 then
    if countOfThisMonth = 0 then ⟨Trend.noChange, 0⟩ else ⟨Trend.increment, 100⟩
  else
    let change := countOfThisMonth - countOfLastMonth
    let percentage := |change / countOfLastMonth * 100|
    if change > 0 then ⟨Trend.increment, percentage⟩
    else if change < 0 then ⟨Trend.decrement, percentage⟩
    else ⟨Trend.noChange, 0⟩

/-! ### Trip-form validation (handleSubmit of the CreateTrip component)

Source order: (1) any required field falsy -> setError msgFillAll and
return; (2) duration < 1 or duration > 10 -> setError msgDurationRange
and return; (3) account.get() with a falsy id -> log and return without
a request; (4) otherwise POST the payload to /api/create-trip.
The duration field comes from Number(e.target.value), which yields a
finite number or NaN (for non-numeric input); it is modelled as an
exact rational or the NaN value, and the JS comparison operators are
modelled with NaN incomparable, exactly as < and > behave on NaN in
the source.  (Infinite values, reachable only through inputs such as
1e999, compare like any other out-of-range magnitude and are blocked
by the range check, so they are not given separate constructors.)
The post-request navigation is not modelled: no claim mentions it. -/

inductive JsNum where
  | nan
  | num (q : ℚ)
deriving DecidableEq

/-- The JS < operator on numbers: false whenever a side is NaN. -/
def JsNum.ltb : JsNum → JsNum → Bool
  | JsNum.num a, JsNum.num b => decide (a < b)
  | _, _ => false

/-- The JS > operator on numbers: false whenever a side is NaN. -/
def JsNum.gtb : JsNum → JsNum → Bool
  | JsNum.num a, JsNum.num b => decide (b < a)
  | _, _ => false

structure TripFormData where
  country : String
  travelStyle : String
  interest : String
  duration : JsNum
  budget : String
  groupType : String
deriving DecidableEq

structure TripPayload where
  country : String
  numberOfDays : JsNum
  travelStyle : String
  interests : String
  budget : String
  groupType : String
  userId : String
deriving DecidableEq

inductive SubmitOutcome where
  | blocked (msg : String)
  | notAuthenticated
  | requested (payload : TripPayload)
deriving DecidableEq

def handleSubmit (form : TripFormData) (session : Option String) : SubmitOutcome :=
  if form.country = "" ∨ form.travelStyle = "" ∨ form.interest = "" ∨
      form.budget = "" ∨ form.groupType = "" then
    SubmitOutcome.blocked msgFillAll
  else if form.duration.ltb (JsNum.num 1) || form.duration.gtb (JsNum.num 10) then
    SubmitOutcome.blocked msgDurationRange
  else
    match session with
    | none => SubmitOutcome.notAuthenticated
    | some uid =>
        SubmitOutcome.requested
          ⟨form.country, form.duration, form.travelStyle, form.interest,
           form.budget, form.groupType, uid⟩

/-! ### Trips-page loader and getAllTrips

getAllTrips issues one listDocuments query carrying Query.limit(limit),
Query.offset(offset) and Query.orderDesc(createdAt); the descending
order is part of every query it issues, so the abstract store function
receives just the (limit, offset) pair.  If the store reports total 0 it
returns an empty list and total 0, otherwise the documents and the
reported total.  The loader uses page size 8 and offset (page-1)*8 and
passes the total through; the per-document reshaping for display does
not touch the total and no claim depends on it. -/

structure TripsQuery where
  limit : Int
  offset : Int
deriving DecidableEq

structure TripStoreDoc where
  docId : String
  tripDetail : String
  imageUrls : List String
  createdAt : String
deriving DecidableEq

structure TripsPage where
  documents : List TripStoreDoc
  total : Nat

def getAllTrips (store : TripsQuery → TripsPage) (limit offset : Int) :
    TripsQuery × List TripStoreDoc × Nat :=
  let q : TripsQuery := ⟨limit, offset⟩
  let allTrips := store q
  if allTrips.total = 0 then (q, [], 0)
  else (q, allTrips.documents, allTrips.total)

def tripsLoader (store : TripsQuery → TripsPage) (page : Int) :
    TripsQuery × List TripStoreDoc × Nat :=
  let limit : Int := 8
  let offset : Int := (page - 1) * limit
  getAllTrips store limit offset

/-! ### Dashboard statistics (getUsersAndTripsStats)

The wall-clock month boundaries (startCurrent, startPrev, endPrev) and
the two collections pulled by listDocuments are parameters.  Timestamps
are ISO-8601 strings compared lexicographically, exactly as the source
compares them with >= and <= on strings. -/

structure UserDoc where
  docId : String
  accountId : String
  email : String
  name : String
  imageUrl : Option String
  joinedAt : String
  status : Option String
deriving DecidableEq

structure TripRow where
  createdAt : String
deriving DecidableEq

structure MonthPair where
  currentMonth : Nat
  lastMonth : Nat
deriving DecidableEq

structure RoleStats where
  total : Nat
  currentMonth : Nat
  lastMonth : Nat
deriving DecidableEq

structure DashboardStats where
  totalUsers : Nat
  usersJoined : MonthPair
  userRole : RoleStats
  totalTrips : Nat
  tripsCreated : MonthPair
deriving DecidableEq

/-- Source: items.filter(item => item[key] >= start && (!end || item[key] <= end)).length -/
def filterByDate {α : Type} (items : List α) (key : α → String)
    (start : String) (stop : Option String) : Nat :=
  (items.filter (fun it =>
    decide (start ≤ key it) &&
      (match stop with
       | none => true
       | some e => decide (key it ≤ e)))).length

def filterUsersByRole (users : List UserDoc) (role : String) : List UserDoc :=
  users.filter (fun u => decide (u.status = some role))

def getUsersAndTripsStats (users : List UserDoc) (usersTotal : Nat)
    (trips : List TripRow) (tripsTotal : Nat)
    (startCurrent startPrev endPrev : String) : DashboardStats :=
  { totalUsers := usersTotal
    usersJoined :=
      ⟨filterByDate users (fun u => u.joinedAt) startCurrent none,
       filterByDate users (fun u => u.joinedAt) startPrev (some endPrev)⟩
    userRole :=
      ⟨(filterUsersByRole users roleUser).length,
       filterByDate (filterUsersByRole users roleUser) (fun u => u.joinedAt)
         startCurrent none,
       filterByDate (filterUsersByRole users roleUser) (fun u => u.joinedAt)
         startPrev (some endPrev)⟩
    totalTrips := tripsTotal
    tripsCreated :=
      ⟨filterByDate trips (fun t => t.createdAt) startCurrent none,
       -- the source reuses the role-filtered USER list and the joinedAt
       -- field here, not the trips collection:
       filterByDate (filterUsersByRole users roleUser) (fun u => u.joinedAt)
         startPrev (some endPrev)⟩ }

/-! ### parseMarkdownToJson (lib/utils)

Source:
    const regex = /```json\n([\s\S]+?)\n```/;
    const match = markdownText.match(regex);
    if (match && match[1]) { try { return JSON.parse(match[1]); }
      catch { return null; } }
    return null;

Strings are embedded as lists of characters.  The regex engine is
embedded faithfully: String.prototype.match tries each start position
from the left; at a position the pattern matches when the literal
opening fence is there and the lazy one-or-more group finds the nearest
later closing fence; the group is the shortest text between them.
JSON.parse is an external platform function and is a parameter: it
either yields a value (some) or throws (none, which the source catches
and turns into null). -/

/-- The opening fence of the regex, the 8 characters of three backticks,
json and a newline (backticks written with escapes). -/
def openFence : List Char := ("\x60\x60\x60json\n").data

/-- The closing fence of the regex, a newline and three backticks. -/
def closeFence : List Char := ("\x0a\x60\x60\x60").data

/-- First index at which pat occurs in s (as a prefix of the suffix
starting there), scanning from the left; none when it never occurs. -/
def findPat (pat : List Char) : List Char → Option Nat
  | [] => if pat.isPrefixOf ([] : List Char) then some 0 else none
  | c :: rest =>
      if pat.isPrefixOf (c :: rest) then some 0
      else (findPat pat rest).map (fun k => k + 1)

/-- One attempt of the regex at the start of s: the opening fence must
be there, and the lazy group then runs to the nearest closing fence
found at least one character later.  The group content is the text
between the fences. -/
def tryFenceHead (s : List Char) : Option (List Char) :=
  if openFence.isPrefixOf s then
    (findPat closeFence (s.drop 9)).map (fun k => (s.drop 8).take (k + 1))
  else none

/-- Leftmost regex match: try every start position from the left and
return the group of the first position where the whole pattern
matches. -/
def jsonBlockMatch : List Char → Option (List Char)
  | [] => none
  | c :: rest =>
      match tryFenceHead (c :: rest) with
      | some g => some g
      | none => jsonBlockMatch rest

def parseMarkdownToJson {V : Type} (jsonParse : List Char → Option V)
    (markdownText : List Char) : Option V :=
  match jsonBlockMatch markdownText with
  | some content => jsonParse content
  | none => none

/-! Specification-side reading of the regex, written from the words of
the claim: a fenced block opens at i and closes at j when the opening
fence occurs at i, the closing fence occurs at j, and at least one
content character separates them; the FIRST block is the one with the
least opening index and, for that opening, the least closing index.
These definitions are compared with the scanning algorithm above by the
theorems. -/

def opensAt (s : List Char) (i : Nat) : Prop :=
  openFence.isPrefixOf (s.drop i) = true

def closesAt (s : List Char) (j : Nat) : Prop :=
  closeFence.isPrefixOf (s.drop j) = true

instance (s : List Char) (i : Nat) : Decidable (opensAt s i) := by
  unfold opensAt
  infer_instance

instance (s : List Char) (j : Nat) : Decidable (closesAt s j) := by
  unfold closesAt
  infer_instance

def BlockAt (s : List Char) (i j : Nat) : Prop :=
  opensAt s i ∧ closesAt s j ∧ i + 9 ≤ j

instance (s : List Char) (i j : Nat) : Decidable (BlockAt s i j) := by
  unfold BlockAt
  infer_instance

def FirstBlock (s : List Char) (i j : Nat) : Prop :=
  BlockAt s i j ∧
  (∀ i' j', BlockAt s i' j' → i ≤ i') ∧
  (∀ j', BlockAt s i j' → j ≤ j')

/-- The text strictly between the fences of a block opening at i and
closing at j. -/
def blockContent (s : List Char) (i j : Nat) : List Char :=
  (s.drop (i + 8)).take (j - (i + 8))

/-! ### The create-trip action (app/routes/api/create-trip.ts)

The action receives an already-parsed JSON body of preferences (the
spec surface accepts a JSON body of trip preferences).  Inside one
try/catch it: calls the generative model, extracts the trip with
parseMarkdownToJson (which never throws: it catches internally and
returns null), fetches the photo-search endpoint, takes
results.slice(0, 3) mapping each to urls.regular or null, writes one
document (tripDetail = JSON.stringify(trip), createdAt, imageUrls,
userId), and returns the id; any rejection along the way lands in the
catch, which returns the error body.  Each external call is an explicit
field of the environment:
  - modelReply: none when generateContent rejects;
  - jsonParse / stringify: the platform JSON functions (stringify of
    null is hard-wired to the literal null, a platform fact);
  - imageFetch: none when the fetch or its .json() rejects; some none
    when the body has no results array (then .slice throws); some
    (some rs) when a results list arrives;
  - dbResult: none when createDocument rejects, else the new id.
The prompt string built from the preferences only feeds the model call
and affects nothing the claims mention, so it is not reproduced. -/

structure TripCreateDoc where
  tripDetail : List Char
  imageUrls : List (Option String)
  userId : String
  createdAt : String
deriving DecidableEq

structure CreateTripEnv (V : Type) where
  modelReply : Option (List Char)
  jsonParse : List Char → Option V
  stringify : V → List Char
  imageFetch : Option (Option (List (Option String)))
  dbResult : Option String

/-- JSON.stringify applied to the extraction result: the source passes
the possibly-null trip straight to JSON.stringify, and stringify of
null is the four-character literal null. -/
def stringifyTrip {V : Type} (stringify : V → List Char) : Option V → List Char
  | some v => stringify v
  | none => nullLit

inductive ActionResponse where
  | success (id : String)
  | failure
deriving DecidableEq

structure ActionOutcome where
  response : ActionResponse
  written : Option TripCreateDoc
deriving DecidableEq

def createTripAction {V : Type} (env : CreateTripEnv V)
    (userId : String) (now : String) : ActionOutcome :=
  match env.modelReply with
  | none => ⟨ActionResponse.failure, none⟩
  | some text =>
      let trip := parseMarkdownToJson env.jsonParse text
      match env.imageFetch with
      | none => ⟨ActionResponse.failure, none⟩
      | some none => ⟨ActionResponse.failure, none⟩
      | some (some results) =>
          let imageUrls := results.take 3
          match env.dbResult with
          | none => ⟨ActionResponse.failure, none⟩
          | some id =>
              ⟨ActionResponse.success id,
               some ⟨stringifyTrip env.stringify trip, imageUrls, userId, now⟩⟩

/-! ### Auth: getExistingUser, storeUserData and the admin clientLoader

getExistingUser queries the user collection for accountId = id and
returns the first document when the total is positive, else null.

storeUserData (the version the admin layout imports) reads the current
account, reads the provider access token of the current session,
fetches the Google picture only when a token is present, and creates
one user document whose data is exactly accountId, email, name,
imageUrl and joinedAt -- it passes NO role/status value, so the stored
document carries none.  The document id is assigned by the store
(ID.unique()), a parameter here.

clientLoader: account.get throwing or a falsy id redirects to sign-in;
a profile whose status is the non-admin value redirects to the root;
otherwise a profile with a truthy id is returned as is, and without one
storeUserData runs. -/

structure AccountUser where
  id : String
  email : String
  name : String
deriving DecidableEq

def getExistingUser (db : List UserDoc) (id : String) : Option UserDoc :=
  (db.filter (fun d => decide (d.accountId = id))).head?

def storeUserData (newId : String) (user : AccountUser)
    (providerAccessToken : Option String) (googlePicture : Option String)
    (now : String) : UserDoc :=
  { docId := newId
    accountId := user.id
    email := user.email
    name := user.name
    imageUrl :=
      match providerAccessToken with
      | some _ => googlePicture
      | none => none
    joinedAt := now
    -- the createDocument data has no role field at all:
    status := none }

inductive LoaderResult where
  | redirectSignIn
  | redirectRoot
  | profile (d : UserDoc)
  | createdProfile (d : UserDoc)
deriving DecidableEq

def clientLoader (session : Option AccountUser) (db : List UserDoc)
    (newId : String) (providerAccessToken : Option String)
    (googlePicture : Option String) (now : String) : LoaderResult :=
  match session with
  | none => LoaderResult.redirectSignIn
  | some user =>
      if user.id = "" then LoaderResult.redirectSignIn
      else
        match getExistingUser db user.id with
        | some existingUser =>
            if existingUser.status = some roleUser then LoaderResult.redirectRoot
            else if existingUser.docId = "" then
              LoaderResult.createdProfile
                (storeUserData newId user providerAccessToken googlePicture now)
            else LoaderResult.profile existingUser
        | none =>
            LoaderResult.createdProfile
              (storeUserData newId user providerAccessToken googlePicture now)

/-! ### getUserGrowthPerDay (appwrite/dashboard)

Reduces the user collection into a plain object keyed by the rendered
day of joinedAt (toLocaleDateString with short month and numeric day, a
platform function taken as a parameter), incrementing acc[day], then
returns Object.entries as (day, count) pairs.  A JS object keeps string
keys such as these in insertion order: updating an existing key keeps
its position and a new key is appended, which is exactly what bump
does. -/

def bump (acc : List (String × Nat)) (d : String) : List (String × Nat) :=
  match acc with
  | [] => [(d, 1)]
  | (k, n) :: rest =>
      if k = d then (k, n + 1) :: rest else (k, n) :: bump rest d

def getUserGrowthPerDay {α : Type} (render : α → String)
    (users : List α) : List (String × Nat) :=
  users.foldl (fun acc u => bump acc (render u)) []

/-- Count recorded for a day label: the value at the first matching key,
0 when the label is absent (acc[day] || 0). -/
def dayCount : List (String × Nat) → String → Nat
  | [], _ => 0
  | (k, n) :: rest, d => if k = d then n else dayCount rest d

/-! ### Concrete inputs used by witnesses and counterexamples -/

def oneDigitChars : List Char := ("1").data

def sampleParse : List Char → Option Nat :=
  fun c => if c = oneDigitChars then some 1 else none

def sampleStringify : Nat → List Char := fun n => (toString n).data

/-- A markdown reply holding one fenced block with content 1,
surrounded by one character on each side. -/
def fencedSample : List Char :=
  'a' :: (openFence ++ ('1' :: (closeFence ++ ('b' :: ([] : List Char)))))

def proseReply : List Char := ("the model returned prose, nothing fenced").data

def fencedReply : List Char := openFence ++ ('1' :: closeFence)

def tripIdSample : String := "trip-1"

def userIdSample : String := "user-7"

def nowSample : String := "2025-06-01T00:00:00.000Z"

/-- Environment for the null-extraction scenario: the model call
succeeds with prose (no fenced block), the photo search resolves with
an empty result list, the document write succeeds. -/
def envNullParse : CreateTripEnv Nat :=
  { modelReply := some proseReply
    jsonParse := sampleParse
    stringify := sampleStringify
    imageFetch := some (some [])
    dbResult := some tripIdSample }

/-- Environment for the rejected image fetch: the model call succeeds
with a well-formed fenced reply, the photo-search call rejects, the
document store would accept a write. -/
def envImageReject : CreateTripEnv Nat :=
  { modelReply := some fencedReply
    jsonParse := sampleParse
    stringify := sampleStringify
    imageFetch := none
    dbResult := some tripIdSample }

/-- Environment with an empty photo-search result list and every call
succeeding. -/
def envEmptyImages : CreateTripEnv Nat :=
  { modelReply := some fencedReply
    jsonParse := sampleParse
    stringify := sampleStringify
    imageFetch := some (some [])
    dbResult := some tripIdSample }

/-- Environment for the persisted-null-itinerary scenario of the
invariants claim. -/
def envNullPersist : CreateTripEnv Nat :=
  { modelReply := some proseReply
    jsonParse := sampleParse
    stringify := sampleStringify
    imageFetch := some (some [])
    dbResult := some tripIdSample }

def accountIdSample : String := "acc-1"

def emailSample : String := "a@b.c"

def nameSample : String := "Jo"

def docIdSample : String := "doc-1"

def newIdSample : String := "doc-new"

def accountSample : AccountUser :=
  { id := accountIdSample, email := emailSample, name := nameSample }

/-- An existing admin profile document for the account above. -/
def adminDocSample : UserDoc :=
  { docId := docIdSample
    accountId := accountIdSample
    email := emailSample
    name := nameSample
    imageUrl := none
    joinedAt := nowSample
    status := some roleAdmin }

def dbSample : List UserDoc := [adminDocSample]

def sampleField : String := "x"

/-- A trip form whose required fields are all filled but whose duration
is 0, outside the accepted range. -/
def formZeroDuration : TripFormData :=
  { country := sampleField
    travelStyle := sampleField
    interest := sampleField
    duration := JsNum.num 0
    budget := sampleField
    groupType := sampleField }

/-- A trip form whose required fields are all filled but whose duration
is the NaN value, as produced by Number of a non-numeric input. -/
def formNanDuration : TripFormData :=
  { country := sampleField
    travelStyle := sampleField
    interest := sampleField
    duration := JsNum.nan
    budget := sampleField
    groupType := sampleField }

def dayLabelA : String := "Jun 5"

def dayLabelB : String := "Jun 6"

def growthUsersSample : List String := [dayLabelA, dayLabelB, dayLabelA]

/-! ## Theorems -/

/-! ### Helper lemmas -/

theorem length_filter_filter {α : Type} (l : List α) (p q : α → Bool) :
    ((l.filter p).filter q).length = (l.filter (fun a => p a && q a)).length := by
  rw [List.filter_filter]
  exact congrArg List.length
    (List.filter_congr (fun a _ => Bool.and_comm (q a) (p a)))

/-! ### C1: trend percentage -/

/-- C1: for non-negative integer inputs, calculateTrendPercentage
returns no-change/0 on (0,0); increment/100 when only the prior month
is 0; otherwise the percentage is the absolute relative change
times 100, classified increment / decrement / no-change by the sign of
the difference; in particular (0,0), (5,0) and (8,10) give
no-change/0, increment/100 and decrement/20. -/
theorem calculateTrendPercentage_spec (c l : ℕ) :
    (c = 0 → l = 0 →
      calculateTrendPercentage c l = ⟨Trend.noChange, 0⟩) ∧
    (l = 0 → c ≠ 0 →
      calculateTrendPercentage c l = ⟨Trend.increment, 100⟩) ∧
    (l ≠ 0 → l < c →
      calculateTrendPercentage c l =
        ⟨Trend.increment, |(c : ℚ) - (l : ℚ)| / (l : ℚ) * 100⟩) ∧
    (l ≠ 0 → c < l →
      calculateTrendPercentage c l =
        ⟨Trend.decrement, |(c : ℚ) - (l : ℚ)| / (l : ℚ) * 100⟩) ∧
    (l ≠ 0 → c = l →
      calculateTrendPercentage c l = ⟨Trend.noChange, 0⟩) ∧
    calculateTrendPercentage 0 0 = ⟨Trend.noChange, 0⟩ ∧
    calculateTrendPercentage 5 0 = ⟨Trend.increment, 100⟩ ∧
    calculateTrendPercentage 8 10 = ⟨Trend.decrement, 20⟩ := by
  have habs : ∀ x y : ℚ, 0 < y → |x / y * 100| = |x| / y * 100 := by
    intro x y hy
    rw [abs_mul, abs_div, abs_of_pos hy]
    norm_num
  refine ⟨?_, ?_, ?_, ?_, ?_, ?_, ?_, ?_⟩
  · intro hc hl
    subst hc; subst hl
    norm_num [calculateTrendPercentage]
  · intro hl hc
    subst hl
    have hc0 : ((c : ℚ)) ≠ 0 := Nat.cast_ne_zero.mpr hc
    norm_num [calculateTrendPercentage, hc0]
  · intro hl hlt
    have hl0 : ((l : ℚ)) ≠ 0 := Nat.cast_ne_zero.mpr hl
    have hlpos : (0 : ℚ) < l := Nat.cast_pos.mpr (Nat.pos_of_ne_zero hl)
    have hch : (0 : ℚ) < (c : ℚ) - (l : ℚ) :=
      sub_pos.mpr (by exact_mod_cast hlt)
    simp only [calculateTrendPercentage, if_neg hl0, if_pos hch]
    rw [habs _ _ hlpos]
  · intro hl hlt
    have hl0 : ((l : ℚ)) ≠ 0 := Nat.cast_ne_zero.mpr hl
    have hlpos : (0 : ℚ) < l := Nat.cast_pos.mpr (Nat.pos_of_ne_zero hl)
    have hch : (c : ℚ) - (l : ℚ) < 0 :=
      sub_neg.mpr (by exact_mod_cast hlt)
    simp only [calculateTrendPercentage, if_neg hl0, if_neg (not_lt.mpr hch.le),
      if_pos hch]
    rw [habs _ _ hlpos]
  · intro hl heq
    subst heq
    have hl0 : ((c : ℚ)) ≠ 0 := Nat.cast_ne_zero.mpr hl
    simp [calculateTrendPercentage, hl0]
  · norm_num [calculateTrendPercentage]
  · norm_num [calculateTrendPercentage]
  · have h20 : |((8 : ℚ) - 10) / 10 * 100| = 20 := by
      rw [show ((8 : ℚ) - 10) / 10 * 100 = -20 by norm_num]
      norm_num
    norm_num [calculateTrendPercentage, h20]

/-- C1 witness: the theorem applied at the concrete input (8,10). -/
theorem calculateTrendPercentage_spec_witness :
    calculateTrendPercentage ((8 : ℕ) : ℚ) ((10 : ℕ) : ℚ) =
      ⟨Trend.decrement, 20⟩ := by
  have h := (calculateTrendPercentage_spec 8 10).2.2.2.1 (by decide) (by decide)
  rw [h]
  norm_num

/-! ### C5: trips-created-last-month reuses the user filter -/

/-- C5: the tripsCreated.lastMonth figure is the number of user
documents whose status is the user role and whose joinedAt lies in
the previous-month window; it coincides with userRole.lastMonth and
does not depend on the trips collection at all. -/
theorem tripsCreatedLastMonth_usesUserFilter (users : List UserDoc)
    (usersTotal : Nat) (trips : List TripRow) (tripsTotal : Nat)
    (startCurrent startPrev endPrev : String) :
    (getUsersAndTripsStats users usersTotal trips tripsTotal
        startCurrent startPrev endPrev).tripsCreated.lastMonth =
      (users.filter (fun u =>
        decide (u.status = some roleUser) &&
          (decide (startPrev ≤ u.joinedAt) &&
            decide (u.joinedAt ≤ endPrev)))).length ∧
    (getUsersAndTripsStats users usersTotal trips tripsTotal
        startCurrent startPrev endPrev).tripsCreated.lastMonth =
      (getUsersAndTripsStats users usersTotal trips tripsTotal
        startCurrent startPrev endPrev).userRole.lastMonth ∧
    ∀ (trips2 : List TripRow) (tripsTotal2 : Nat),
      (getUsersAndTripsStats users usersTotal trips2 tripsTotal2
          startCurrent startPrev endPrev).tripsCreated.lastMonth =
        (getUsersAndTripsStats users usersTotal trips tripsTotal
          startCurrent startPrev endPrev).tripsCreated.lastMonth := by
  refine ⟨?_, rfl, fun trips2 tripsTotal2 => rfl⟩
  show filterByDate (filterUsersByRole users roleUser)
      (fun u => u.joinedAt) startPrev (some endPrev) = _
  unfold filterByDate filterUsersByRole
  rw [length_filter_filter]

/-! ### C7: trip-form validation -/

/-- C7 counterexample: with every required field filled and the
duration the NaN value (Number of a non-numeric form input), both
range comparisons are false, validation passes, and a request IS
issued whose numberOfDays is NaN -- which is not a numeric value in
[1,10], refuting that a request is issued only when
1 <= duration <= 10. -/
theorem handleSubmit_nan_counterexample :
    handleSubmit formNanDuration (some userIdSample) =
      SubmitOutcome.requested
        ⟨sampleField, JsNum.nan, sampleField, sampleField, sampleField,
         sampleField, userIdSample⟩ ∧
    ¬∃ q : ℚ, JsNum.nan = JsNum.num q ∧ 1 ≤ q ∧ q ≤ 10 := by
  constructor
  · decide
  · rintro ⟨q, hq, _⟩
    cases hq

/-- C7 (amended): submission is blocked with a visible message when a
required field is empty, or when the duration is a NUMERIC value
outside 1..10; a request is issued only when every required field is
non-empty and the duration is either a numeric value in 1..10 or NaN:
the NaN state produced by a non-numeric input passes the range check,
since both of its comparisons are false, and a request is then issued
with that duration. -/
theorem handleSubmit_spec_amended (form : TripFormData)
    (session : Option String) :
    ((form.country = "" ∨ form.travelStyle = "" ∨ form.interest = "" ∨
        form.budget = "" ∨ form.groupType = "") →
      handleSubmit form session = SubmitOutcome.blocked msgFillAll) ∧
    (form.country ≠ "" → form.travelStyle ≠ "" → form.interest ≠ "" →
      form.budget ≠ "" → form.groupType ≠ "" →
      ∀ q : ℚ, form.duration = JsNum.num q → (q < 1 ∨ q > 10) →
      handleSubmit form session = SubmitOutcome.blocked msgDurationRange) ∧
    (∀ p, handleSubmit form session = SubmitOutcome.requested p →
      form.country ≠ "" ∧ form.travelStyle ≠ "" ∧ form.interest ≠ "" ∧
        form.budget ≠ "" ∧ form.groupType ≠ "" ∧
        p.numberOfDays = form.duration ∧
        (form.duration = JsNum.nan ∨
          ∃ q : ℚ, form.duration = JsNum.num q ∧ 1 ≤ q ∧ q ≤ 10)) := by
  refine ⟨?_, ?_, ?_⟩
  · intro h
    simp only [handleSubmit, if_pos h]
  · intro h1 h2 h3 h4 h5 q hq hout
    have hfields : ¬(form.country = "" ∨ form.travelStyle = "" ∨
        form.interest = "" ∨ form.budget = "" ∨ form.groupType = "") := by
      simp [h1, h2, h3, h4, h5]
    have hcond : (form.duration.ltb (JsNum.num 1) ||
        form.duration.gtb (JsNum.num 10)) = true := by
      rw [hq]
      rcases hout with h | h
      · simp [JsNum.ltb, h]
      · simp [JsNum.gtb, h]
    simp only [handleSubmit, if_neg hfields, if_pos hcond]
  · intro p hp
    unfold handleSubmit at hp
    split at hp
    · exact absurd hp (by simp)
    · split at hp
      · exact absurd hp (by simp)
      · rename_i hfields hdur
        push_neg at hfields
        obtain ⟨g1, g2, g3, g4, g5⟩ := hfields
        cases session with
        | none => exact absurd hp (by simp)
        | some uid =>
            cases hp
            refine ⟨g1, g2, g3, g4, g5, rfl, ?_⟩
            cases hd : form.duration with
            | nan => exact Or.inl rfl
            | num q =>
                refine Or.inr ⟨q, rfl, ?_, ?_⟩
                · rw [hd] at hdur
                  simp only [JsNum.ltb, Bool.or_eq_true, decide_eq_true_eq,
                    not_or] at hdur
                  exact le_of_not_lt hdur.1
                · rw [hd] at hdur
                  simp only [JsNum.gtb, Bool.or_eq_true, decide_eq_true_eq,
                    not_or] at hdur
                  exact le_of_not_lt hdur.2

/-- C7 witness: the amended theorem applied to a form with every field
filled and numeric duration 0, which is blocked with the duration
message. -/
theorem handleSubmit_spec_amended_witness :
    handleSubmit formZeroDuration none = SubmitOutcome.blocked msgDurationRange :=
  (handleSubmit_spec_amended formZeroDuration none).2.1 (by decide) (by decide)
    (by decide) (by decide) (by decide) 0 rfl (Or.inl (by norm_num))

/-! ### C8: trips pagination -/

/-- C8: for page N the loader queries the store with limit 8 and
offset (N-1)*8, and the total it returns is the total the store
reports for that query on the trips collection. -/
theorem tripsLoader_spec (store : TripsQuery → TripsPage) (page : Int) :
    (tripsLoader store page).1 = ⟨8, (page - 1) * 8⟩ ∧
    (tripsLoader store page).2.2 = (store ⟨8, (page - 1) * 8⟩).total := by
  constructor
  · simp only [tripsLoader, getAllTrips]
    split <;> rfl
  · simp only [tripsLoader, getAllTrips]
    split
    · rename_i h
      simpa using h.symm
    · rfl

/-! ### C6: admin-route guard -/

/-- C6: no session (or a falsy account id) redirects to sign-in; a
profile carrying the non-admin role redirects to the public root; an
admin with an existing profile gets that document back unchanged; and
with no profile document yet, one is created by storeUserData on first
login. -/
theorem clientLoader_spec (db : List UserDoc) (newId : String)
    (tok pic : Option String) (now : String) :
    (clientLoader none db newId tok pic now = LoaderResult.redirectSignIn) ∧
    (∀ u : AccountUser, u.id = "" →
      clientLoader (some u) db newId tok pic now = LoaderResult.redirectSignIn) ∧
    (∀ (u : AccountUser) (d : UserDoc), u.id ≠ "" →
      getExistingUser db u.id = some d → d.status = some roleUser →
      clientLoader (some u) db newId tok pic now = LoaderResult.redirectRoot) ∧
    (∀ (u : AccountUser) (d : UserDoc), u.id ≠ "" →
      getExistingUser db u.id = some d → d.status = some roleAdmin →
      d.docId ≠ "" →
      clientLoader (some u) db newId tok pic now = LoaderResult.profile d) ∧
    (∀ u : AccountUser, u.id ≠ "" →
      getExistingUser db u.id = none →
      clientLoader (some u) db newId tok pic now =
        LoaderResult.createdProfile (storeUserData newId u tok pic now)) := by
  refine ⟨rfl, ?_, ?_, ?_, ?_⟩
  · intro u hu
    simp only [clientLoader, if_pos hu]
  · intro u d hu hget hstat
    simp only [clientLoader, if_neg hu, hget]
    rw [if_pos hstat]
  · intro u d hu hget hstat hdoc
    simp only [clientLoader, if_neg hu, hget]
    rw [hstat]
    rw [if_neg (by decide : ¬((some roleAdmin : Option String) = some roleUser))]
    rw [if_neg hdoc]
  · intro u hu hget
    simp only [clientLoader, if_neg hu, hget]

/-- C6 witness: the theorem applied to an admin account with an
existing profile document. -/
theorem clientLoader_spec_witness :
    clientLoader (some accountSample) dbSample newIdSample none none nowSample =
      LoaderResult.profile adminDocSample :=
  (clientLoader_spec dbSample newIdSample none none nowSample).2.2.2.1
    accountSample adminDocSample (by decide) (by decide) rfl (by decide)

/-! ### C2: what the action returns when extraction yields null -/

/-- C2 counterexample: with a model reply holding no fenced block the
extraction yields null, yet when the remaining calls succeed the
action answers with the success body carrying the new id, not with the
error body. -/
theorem createTrip_nullParse_returns_id_counterexample :
    parseMarkdownToJson envNullParse.jsonParse proseReply = none ∧
    envNullParse.modelReply = some proseReply ∧
    (createTripAction envNullParse userIdSample nowSample).response =
      ActionResponse.success tripIdSample ∧
    (createTripAction envNullParse userIdSample nowSample).response ≠
      ActionResponse.failure := by
  refine ⟨by decide, rfl, by decide, by decide⟩

/-- C2 (amended): every response of the action is either the success
body with an id or the error body; but a null extraction does NOT
surface the generic failure: the action carries on, and when the image
fetch and the write succeed it persists tripDetail as the literal null
and returns the success body.  The error body arises only from a
rejected step. -/
theorem createTrip_responses_amended {V : Type} (env : CreateTripEnv V)
    (userId now : String) :
    ((∃ id, (createTripAction env userId now).response =
        ActionResponse.success id) ∨
      (createTripAction env userId now).response = ActionResponse.failure) ∧
    (∀ (text : List Char) (results : List (Option String)) (id : String),
      env.modelReply = some text →
      parseMarkdownToJson env.jsonParse text = none →
      env.imageFetch = some (some results) →
      env.dbResult = some id →
      createTripAction env userId now =
        ⟨ActionResponse.success id,
         some ⟨nullLit, results.take 3, userId, now⟩⟩) := by
  constructor
  · rcases hm : env.modelReply with _ | text
    · exact Or.inr (by simp [createTripAction, hm])
    · rcases hi : env.imageFetch with _ | ri
      · exact Or.inr (by simp [createTripAction, hm, hi])
      · rcases ri with _ | results
        · exact Or.inr (by simp [createTripAction, hm, hi])
        · rcases hd : env.dbResult with _ | id
          · exact Or.inr (by simp [createTripAction, hm, hi, hd])
          · exact Or.inl ⟨id, by simp [createTripAction, hm, hi, hd]⟩
  · intro text results id hm hparse hi hd
    simp only [createTripAction, hm, hi, hd, hparse, stringifyTrip]

/-- C2 witness: the amended theorem applied to the concrete
null-extraction environment. -/
theorem createTrip_responses_amended_witness :
    createTripAction envNullParse userIdSample nowSample =
      ⟨ActionResponse.success tripIdSample,
       some ⟨nullLit, [], userIdSample, nowSample⟩⟩ :=
  (createTrip_responses_amended envNullParse userIdSample nowSample).2
    proseReply [] tripIdSample rfl (by decide) rfl rfl

/-! ### C4: image-enrichment failure versus persistence -/

/-- C4 counterexample: the photo-search call rejecting makes the whole
action fail with the error body and nothing is written, even though
the model reply parsed to a valid itinerary and the store would have
accepted the write -- the database write does NOT happen regardless of
the image fetch outcome. -/
theorem createTrip_imageReject_counterexample :
    parseMarkdownToJson envImageReject.jsonParse fencedReply = some 1 ∧
    envImageReject.dbResult = some tripIdSample ∧
    (createTripAction envImageReject userIdSample nowSample).written = none ∧
    (createTripAction envImageReject userIdSample nowSample).response =
      ActionResponse.failure := by
  refine ⟨by decide, rfl, by decide, by decide⟩

/-- C4 (amended): the image-fetch step sits before the write inside the
same try/catch, so a rejected photo-search call (or a body with no
usable results list) aborts the action with the error body and nothing
is persisted; only when the photo search resolves -- in particular
with an empty result list, giving a trip with no images -- does the
write proceed. -/
theorem createTrip_imageFailure_amended {V : Type} (env : CreateTripEnv V)
    (userId now : String) (text : List Char) :
    (env.modelReply = some text → env.imageFetch = none →
      createTripAction env userId now = ⟨ActionResponse.failure, none⟩) ∧
    (env.modelReply = some text → env.imageFetch = some none →
      createTripAction env userId now = ⟨ActionResponse.failure, none⟩) ∧
    (∀ id, env.modelReply = some text → env.imageFetch = some (some []) →
      env.dbResult = some id →
      createTripAction env userId now =
        ⟨ActionResponse.success id,
         some ⟨stringifyTrip env.stringify
                 (parseMarkdownToJson env.jsonParse text),
               [], userId, now⟩⟩) := by
  refine ⟨?_, ?_, ?_⟩
  · intro hm hi
    simp [createTripAction, hm, hi]
  · intro hm hi
    simp [createTripAction, hm, hi]
  · intro id hm hi hd
    simp [createTripAction, hm, hi, hd]

/-- C4 witness: the amended theorem applied to the environment whose
photo search succeeds with an empty result list. -/
theorem createTrip_imageFailure_amended_witness :
    createTripAction envEmptyImages userIdSample nowSample =
      ⟨ActionResponse.success tripIdSample,
       some ⟨stringifyTrip envEmptyImages.stringify
               (parseMarkdownToJson envEmptyImages.jsonParse fencedReply),
             [], userIdSample, nowSample⟩⟩ :=
  (createTrip_imageFailure_amended envEmptyImages userIdSample nowSample
    fencedReply).2.2 tripIdSample rfl rfl rfl

/-! ### C9: the two claimed invariants at creation time -/

/-- C9 counterexample: the profile document created by storeUserData
carries neither known role value -- the create call passes no role
field at all. -/
theorem storeUserData_noRole_counterexample :
    ¬ ((storeUserData newIdSample accountSample none none nowSample).status =
          some roleUser ∨
       (storeUserData newIdSample accountSample none none nowSample).status =
          some roleAdmin) := by
  decide

/-- C9 (amended): the application does not establish either invariant
at creation time: every profile document storeUserData creates has no
role value, and the create-trip action can persist an itinerary
document whose tripDetail is the literal null, containing no day list
at all. -/
theorem invariantsNotEnforced_amended :
    (∀ (newId : String) (u : AccountUser) (tok pic : Option String)
        (now : String),
      (storeUserData newId u tok pic now).status = none) ∧
    (createTripAction envNullPersist userIdSample nowSample).written =
      some ⟨nullLit, [], userIdSample, nowSample⟩ :=
  ⟨fun _ _ _ _ _ => rfl, by decide⟩

/-! ### C10: user growth per day -/

theorem bump_keys_sub (acc : List (String × Nat)) (d e : String)
    (h : e ∈ (bump acc d).map Prod.fst) : e ∈ acc.map Prod.fst ∨ e = d := by
  induction acc with
  | nil => simpa [bump] using h
  | cons p rest ih =>
      obtain ⟨k, n⟩ := p
      by_cases hk : k = d
      · left
        simpa [bump, hk] using h
      · simp only [bump, if_neg hk, List.map_cons, List.mem_cons] at h ⊢
        rcases h with h | h
        · exact Or.inl (Or.inl h)
        · rcases ih h with h' | h'
          · exact Or.inl (Or.inr h')
          · exact Or.inr h'

theorem bump_keys_nodup (acc : List (String × Nat)) (d : String)
    (h : (acc.map Prod.fst).Nodup) : ((bump acc d).map Prod.fst).Nodup := by
  induction acc with
  | nil => simp [bump]
  | cons p rest ih =>
      obtain ⟨k, n⟩ := p
      simp only [List.map_cons, List.nodup_cons] at h
      obtain ⟨hk_notin, hrest⟩ := h
      by_cases hk : k = d
      · simp only [bump, if_pos hk, List.map_cons, List.nodup_cons]
        exact ⟨hk_notin, hrest⟩
      · simp only [bump, if_neg hk, List.map_cons, List.nodup_cons]
        refine ⟨?_, ih hrest⟩
        intro hmem
        rcases bump_keys_sub rest d k hmem with h' | h'
        · exact hk_notin h'
        · exact hk h'

theorem bump_pos (acc : List (String × Nat)) (d : String)
    (h : ∀ p ∈ acc, 0 < p.2) : ∀ p ∈ bump acc d, 0 < p.2 := by
  induction acc with
  | nil =>
      intro p hp
      simp only [bump, List.mem_singleton] at hp
      subst hp
      exact Nat.one_pos
  | cons q rest ih =>
      obtain ⟨k, n⟩ := q
      intro p hp
      by_cases hk : k = d
      · simp only [bump, if_pos hk, List.mem_cons] at hp
        rcases hp with hp | hp
        · subst hp
          exact Nat.succ_pos n
        · exact h p (List.mem_cons_of_mem _ hp)
      · simp only [bump, if_neg hk, List.mem_cons] at hp
        rcases hp with hp | hp
        · subst hp
          exact h (k, n) (List.mem_cons_self _ _)
        · exact ih (fun r hr => h r (List.mem_cons_of_mem _ hr)) p hp

theorem bump_sum (acc : List (String × Nat)) (d : String) :
    ((bump acc d).map Prod.snd).sum = ((acc.map Prod.snd).sum) + 1 := by
  induction acc with
  | nil => simp [bump]
  | cons q rest ih =>
      obtain ⟨k, n⟩ := q
      by_cases hk : k = d
      · simp only [bump, if_pos hk, List.map_cons, List.sum_cons]
        omega
      · simp only [bump, if_neg hk, List.map_cons, List.sum_cons, ih]
        omega

theorem dayCount_bump (acc : List (String × Nat)) (d e : String) :
    dayCount (bump acc d) e =
      if e = d then dayCount acc e + 1 else dayCount acc e := by
  induction acc with
  | nil =>
      by_cases h : e = d
      · rw [if_pos h]
        simp only [bump, dayCount, if_pos (h.symm : d = e)]
      · rw [if_neg h]
        simp only [bump, dayCount,
          if_neg (fun hh : d = e => h hh.symm)]
  | cons q rest ih =>
      obtain ⟨k, n⟩ := q
      by_cases hk : k = d
      · by_cases he : e = d
        · have hke : k = e := hk.trans he.symm
          simp only [bump, if_pos hk, dayCount, if_pos hke, if_pos he]
        · have hke : ¬(k = e) := fun hh => he (hh.symm.trans hk)
          simp only [bump, if_pos hk, dayCount, if_neg hke, if_neg he]
      · by_cases he : k = e
        · have hed : ¬(e = d) := fun hh => hk (he.trans hh)
          simp only [bump, if_neg hk, dayCount, if_pos he, if_neg hed]
        · simp only [bump, if_neg hk, dayCount, if_neg he, ih]

theorem dayCount_eq_of_mem (l : List (String × Nat)) (d : String) (n : Nat)
    (hnd : (l.map Prod.fst).Nodup) (hmem : (d, n) ∈ l) : dayCount l d = n := by
  induction l with
  | nil => simp at hmem
  | cons p rest ih =>
      obtain ⟨k, m⟩ := p
      simp only [List.map_cons, List.nodup_cons] at hnd
      rcases List.mem_cons.mp hmem with h | h
      · injection h with h1 h2
        subst h1
        subst h2
        simp [dayCount]
      · have hk : ¬(k = d) :=
          fun he => hnd.1 (he ▸ List.mem_map_of_mem Prod.fst h)
        simp only [dayCount, if_neg hk]
        exact ih hnd.2 h

theorem foldl_bump_spec {α : Type} (render : α → String) (users : List α) :
    ∀ acc : List (String × Nat),
      (acc.map Prod.fst).Nodup → (∀ p ∈ acc, 0 < p.2) →
      (((users.foldl (fun a u => bump a (render u)) acc).map Prod.fst).Nodup ∧
       (∀ p ∈ users.foldl (fun a u => bump a (render u)) acc, 0 < p.2) ∧
       ((users.foldl (fun a u => bump a (render u)) acc).map Prod.snd).sum =
         (acc.map Prod.snd).sum + users.length ∧
       ∀ d, dayCount (users.foldl (fun a u => bump a (render u)) acc) d =
         dayCount acc d +
           (users.filter (fun u => decide (render u = d))).length) := by
  induction users with
  | nil =>
      intro acc h1 h2
      exact ⟨h1, h2, by simp, fun d => by simp⟩
  | cons u rest ih =>
      intro acc h1 h2
      simp only [List.foldl_cons]
      obtain ⟨a1, a2, a3, a4⟩ :=
        ih (bump acc (render u)) (bump_keys_nodup _ _ h1) (bump_pos _ _ h2)
      refine ⟨a1, a2, ?_, ?_⟩
      · rw [a3, bump_sum]
        simp only [List.length_cons]
        omega
      · intro d
        rw [a4 d, dayCount_bump]
        by_cases hd : render u = d
        · rw [List.filter_cons,
            if_pos (show decide (render u = d) = true from decide_eq_true hd),
            if_pos (hd.symm : d = render u), List.length_cons]
          omega
        · rw [List.filter_cons,
            if_neg (show ¬decide (render u = d) = true by simpa using hd),
            if_neg (fun hh : d = render u => hd hh.symm)]

/-- C10: the per-day growth entries have pairwise-distinct day labels
and strictly positive counts, the counts sum to the number of user
documents, and the count recorded with a label is exactly the number of
users whose joinedAt renders to that label -- every user lands in
exactly one bucket, the one of its rendered join day. -/
theorem getUserGrowthPerDay_spec {α : Type} (render : α → String)
    (users : List α) :
    ((getUserGrowthPerDay render users).map Prod.fst).Nodup ∧
    (∀ p ∈ getUserGrowthPerDay render users, 0 < p.2) ∧
    ((getUserGrowthPerDay render users).map Prod.snd).sum = users.length ∧
    (∀ (d : String) (n : Nat), (d, n) ∈ getUserGrowthPerDay render users →
      n = (users.filter (fun u => decide (render u = d))).length) := by
  obtain ⟨a1, a2, a3, a4⟩ :=
    foldl_bump_spec render users [] (by simp) (by simp)
  refine ⟨a1, a2, by simpa using a3, ?_⟩
  intro d n hmem
  have hcount : dayCount (getUserGrowthPerDay render users) d = n :=
    dayCount_eq_of_mem _ d n a1 hmem
  have hspec := a4 d
  rw [show List.foldl (fun a u => bump a (render u)) [] users =
        getUserGrowthPerDay render users from rfl, hcount] at hspec
  simp only [dayCount] at hspec
  omega

/-- C10 witness: the theorem applied to three users joining on two
distinct rendered days. -/
theorem getUserGrowthPerDay_spec_witness :
    2 = (growthUsersSample.filter
          (fun u => decide ((fun s : String => s) u = dayLabelA))).length :=
  (getUserGrowthPerDay_spec (fun s : String => s) growthUsersSample).2.2.2
    dayLabelA 2 (by decide)

/-! ### C3: markdown JSON extraction -/

theorem findPat_some (pat : List Char) (s : List Char) (k : Nat)
    (h : findPat pat s = some k) :
    pat.isPrefixOf (s.drop k) = true ∧
      ∀ m, m < k → ¬pat.isPrefixOf (s.drop m) = true := by
  induction s generalizing k with
  | nil =>
      simp only [findPat] at h
      split at h
      · rename_i hp
        cases h
        exact ⟨by simpa using hp, fun m hm => absurd hm (Nat.not_lt_zero m)⟩
      · cases h
  | cons c rest ih =>
      simp only [findPat] at h
      split at h
      · rename_i hp
        cases h
        exact ⟨by simpa using hp, fun m hm => absurd hm (Nat.not_lt_zero m)⟩
      · rename_i hp
        cases hfr : findPat pat rest with
        | none =>
            rw [hfr] at h
            cases h
        | some q =>
            rw [hfr] at h
            cases h
            obtain ⟨h1, h2⟩ := ih q hfr
            refine ⟨by simpa [List.drop_succ_cons] using h1, ?_⟩
            intro m hm
            cases m with
            | zero => simpa using hp
            | succ m' =>
                rw [List.drop_succ_cons]
                exact h2 m' (Nat.lt_of_succ_lt_succ hm)

theorem findPat_none (pat : List Char) (s : List Char)
    (h : findPat pat s = none) :
    ∀ m, ¬pat.isPrefixOf (s.drop m) = true := by
  induction s with
  | nil =>
      intro m
      simp only [findPat] at h
      split at h
      · cases h
      · rename_i hp
        simpa using hp
  | cons c rest ih =>
      intro m
      simp only [findPat] at h
      split at h
      · cases h
      · rename_i hp
        cases hfr : findPat pat rest with
        | some q =>
            rw [hfr] at h
            cases h
        | none =>
            cases m with
            | zero => simpa using hp
            | succ m' =>
                rw [List.drop_succ_cons]
                exact ih hfr m'

theorem blockAt_cons (c : Char) (rest : List Char) (i j : Nat) :
    BlockAt (c :: rest) (i + 1) (j + 1) ↔ BlockAt rest i j := by
  unfold BlockAt opensAt closesAt
  rw [List.drop_succ_cons, List.drop_succ_cons]
  constructor
  · rintro ⟨h1, h2, h3⟩
    exact ⟨h1, h2, by omega⟩
  · rintro ⟨h1, h2, h3⟩
    exact ⟨h1, h2, by omega⟩

theorem jsonBlockMatch_spec (s : List Char) :
    (∀ g, jsonBlockMatch s = some g →
      ∃ i j, FirstBlock s i j ∧ g = blockContent s i j) ∧
    (jsonBlockMatch s = none → ∀ i j, ¬BlockAt s i j) := by
  induction s with
  | nil =>
      constructor
      · intro g hg
        cases hg
      · intro _ i j hb
        have h1 := hb.1
        unfold opensAt at h1
        rw [List.drop_nil] at h1
        exact absurd h1 (by decide)
  | cons c rest ih =>
      obtain ⟨ihs, ihn⟩ := ih
      by_cases hop : openFence.isPrefixOf (c :: rest) = true
      · cases hfc : findPat closeFence ((c :: rest).drop 9) with
        | some k =>
            have htry : tryFenceHead (c :: rest) =
                some (((c :: rest).drop 8).take (k + 1)) := by
              unfold tryFenceHead
              rw [if_pos hop, hfc]
              rfl
            have hmatch : jsonBlockMatch (c :: rest) =
                some (((c :: rest).drop 8).take (k + 1)) := by
              simp only [jsonBlockMatch, htry]
            obtain ⟨hpre, hmin⟩ := findPat_some closeFence _ k hfc
            rw [List.drop_drop] at hpre
            rw [Nat.add_comm 9 k] at hpre
            have hfb : FirstBlock (c :: rest) 0 (k + 9) := by
              refine ⟨⟨hop, hpre, by omega⟩, fun i' j' _ => Nat.zero_le i', ?_⟩
              intro j' hb'
              obtain ⟨_, hcl, h9⟩ := hb'
              by_contra hlt
              push_neg at hlt
              have hm := hmin (j' - 9) (by omega)
              rw [List.drop_drop] at hm
              rw [show 9 + (j' - 9) = j' from by omega] at hm
              exact hm hcl
            constructor
            · intro g hg
              rw [hmatch] at hg
              cases hg
              refine ⟨0, k + 9, hfb, ?_⟩
              unfold blockContent
              rw [show k + 9 - (0 + 8) = k + 1 by omega]
            · intro hnone
              rw [hmatch] at hnone
              cases hnone
        | none =>
            have hnoblock : ∀ i j, ¬BlockAt (c :: rest) i j := by
              intro i j hb
              obtain ⟨_, hcl, hij⟩ := hb
              have hm := findPat_none closeFence _ hfc (j - 9)
              rw [List.drop_drop] at hm
              rw [show 9 + (j - 9) = j from by omega] at hm
              exact hm hcl
            have htry : tryFenceHead (c :: rest) = none := by
              unfold tryFenceHead
              rw [if_pos hop, hfc]
              rfl
            have hmatch : jsonBlockMatch (c :: rest) = jsonBlockMatch rest := by
              simp only [jsonBlockMatch, htry]
            constructor
            · intro g hg
              rw [hmatch] at hg
              obtain ⟨i, j, hfb, _⟩ := ihs g hg
              exact absurd ((blockAt_cons c rest i j).mpr hfb.1)
                (hnoblock (i + 1) (j + 1))
            · intro _ i j hb
              exact hnoblock i j hb
      · have htry : tryFenceHead (c :: rest) = none := by
          unfold tryFenceHead
          rw [if_neg hop]
        have hmatch : jsonBlockMatch (c :: rest) = jsonBlockMatch rest := by
          simp only [jsonBlockMatch, htry]
        constructor
        · intro g hg
          rw [hmatch] at hg
          obtain ⟨i, j, hfb, hgc⟩ := ihs g hg
          obtain ⟨hb, hmini, hminj⟩ := hfb
          refine ⟨i + 1, j + 1, ⟨(blockAt_cons c rest i j).mpr hb, ?_, ?_⟩, ?_⟩
          · intro i' j' hb'
            cases i' with
            | zero =>
                obtain ⟨h1, _, _⟩ := hb'
                unfold opensAt at h1
                rw [List.drop_zero] at h1
                exact absurd h1 hop
            | succ i'' =>
                obtain ⟨h1, h2, h3⟩ := hb'
                cases j' with
                | zero => omega
                | succ j'' =>
                    have hb'' : BlockAt rest i'' j'' :=
                      (blockAt_cons c rest i'' j'').mp ⟨h1, h2, h3⟩
                    have := hmini i'' j'' hb''
                    omega
          · intro j' hb'
            obtain ⟨h1, h2, h3⟩ := hb'
            cases j' with
            | zero => omega
            | succ j'' =>
                have hb'' : BlockAt rest i j'' :=
                  (blockAt_cons c rest i j'').mp ⟨h1, h2, h3⟩
                have := hminj j'' hb''
                omega
          · rw [hgc]
            unfold blockContent
            rw [show i + 1 + 8 = (i + 8) + 1 by omega, List.drop_succ_cons]
            congr 1
            omega
        · intro hnone i j hb
          rw [hmatch] at hnone
          obtain ⟨h1, h2, h3⟩ := hb
          cases i with
          | zero =>
              unfold opensAt at h1
              rw [List.drop_zero] at h1
              exact hop h1
          | succ i'' =>
              cases j with
              | zero => omega
              | succ j'' =>
                  exact ihn hnone i'' j''
                    ((blockAt_cons c rest i'' j'').mp ⟨h1, h2, h3⟩)

theorem firstBlock_unique (s : List Char) (i j i' j' : Nat)
    (h : FirstBlock s i j) (h' : FirstBlock s i' j') : i = i' ∧ j = j' := by
  obtain ⟨hb, hmini, hminj⟩ := h
  obtain ⟨hb', hmini', hminj'⟩ := h'
  have hii : i = i' := Nat.le_antisymm (hmini i' j' hb') (hmini' i j hb)
  subst hii
  exact ⟨rfl, Nat.le_antisymm (hminj j' hb') (hminj' j hb)⟩

/-- C3: for every model reply and every behavior of the platform JSON
parser, parseMarkdownToJson yields the parse of the content of the
first well-formed fenced json block when the reply contains one (so a
parse failure inside the block gives null, since jp returns none
there), and yields null when the reply contains no fenced block at
all. -/
theorem parseMarkdownToJson_spec {V : Type} (jp : List Char → Option V)
    (s : List Char) :
    ((∀ i j, ¬BlockAt s i j) → parseMarkdownToJson jp s = none) ∧
    (∀ i j, FirstBlock s i j →
      parseMarkdownToJson jp s = jp (blockContent s i j)) := by
  obtain ⟨hsome, hnone⟩ := jsonBlockMatch_spec s
  constructor
  · intro hnb
    unfold parseMarkdownToJson
    cases hm : jsonBlockMatch s with
    | none => rfl
    | some g =>
        obtain ⟨i, j, hfb, _⟩ := hsome g hm
        exact absurd hfb.1 (hnb i j)
  · intro i j hfb
    unfold parseMarkdownToJson
    cases hm : jsonBlockMatch s with
    | none => exact absurd hfb.1 (hnone hm i j)
    | some g =>
        obtain ⟨i0, j0, hfb0, hg⟩ := hsome g hm
        obtain ⟨hi, hj⟩ := firstBlock_unique s i0 j0 i j hfb0 hfb
        subst hi
        subst hj
        rw [hg]

/-- C3 witness: the theorem applied to a concrete reply holding one
fenced block whose content parses. -/
theorem parseMarkdownToJson_spec_witness :
    parseMarkdownToJson sampleParse fencedSample = some 1 := by
  have hfb : FirstBlock fencedSample 1 10 := by
    refine ⟨by decide, ?_, ?_⟩
    · intro i' j' hb
      cases i' with
      | zero =>
          obtain ⟨h1, _, _⟩ := hb
          exact absurd h1 (by decide)
      | succ n => exact Nat.succ_le_succ (Nat.zero_le n)
    · intro j' hb
      have := hb.2.2
      omega
  have h := (parseMarkdownToJson_spec sampleParse fencedSample).2 1 10 hfb
  rw [h]
  decide

end TravelApp
